import Mathlib

/-!
Verification development for the drafty repository: a 5v5 matchmaking,
draft and rating system implemented as Firebase cloud functions.

The embedding below is a shallow translation of the TypeScript source
(functions/src/index.ts and functions/src/mmr.ts, provided as
src/unnamed/part_006):

- JavaScript numbers are modelled as rationals.  All concrete inputs used
  in closed theorems are chosen so that the IEEE-754 evaluation in the
  source and the exact rational evaluation agree (sums, products and
  divisions by small constants that either are exact in binary floating
  point or are absorbed by the rounding steps of the source).
- Math.round(x), which rounds half toward positive infinity, is modelled
  as the floor of x + 1/2.
- Math.pow(10, x) is transcendental and is therefore threaded through the
  rating functions as an explicit parameter pow10; Math.pow(10, 0) = 1
  holds exactly in IEEE-754, and all closed evaluations in this file only
  apply pow10 at 0.
- Firestore documents become explicit state values; a function that runs
  inside a Firestore transaction is modelled as a pure function returning
  Except: an error result corresponds to an aborted transaction, which
  leaves the store unchanged.
-/

/-- Math.round: rounds half toward positive infinity. -/
def mathRound (q : ℚ) : ℚ := ((⌊q + 1/2⌋ : ℤ) : ℚ)

/-- Source function clamp(value, min, max) = Math.max(min, Math.min(max, value)). -/
def clamp (value lo hi : ℚ) : ℚ := max lo (min hi value)

namespace MMR_CONFIG

/-- BASE_CHANGE: 25, the standard K-factor. -/
def BASE_CHANGE : ℚ := 25

/-- PLACEMENT_MULTIPLIER: 2, double gains during placement. -/
def PLACEMENT_MULTIPLIER : ℚ := 2

/-- PLACEMENT_GAMES: 5. -/
def PLACEMENT_GAMES : ℚ := 5

/-- MIN_MMR: 100. -/
def MIN_MMR : ℚ := 100

/-- MAX_MMR: 3000. -/
def MAX_MMR : ℚ := 3000

namespace PERFORMANCE_WEIGHTS

/-- Weight of the KDA category. -/
def kda : ℚ := 0.30

/-- Weight of the damage category. -/
def damage : ℚ := 0.25

/-- Weight of the creep-score category. -/
def cs : ℚ := 0.20

/-- Weight of the vision category. -/
def vision : ℚ := 0.15

/-- Weight of the objective category. -/
def objective : ℚ := 0.10

end PERFORMANCE_WEIGHTS

/-- MIN_PERFORMANCE_MULTIPLIER: 0.5. -/
def MIN_PERFORMANCE_MULTIPLIER : ℚ := 0.5

/-- MAX_PERFORMANCE_MULTIPLIER: 1.5. -/
def MAX_PERFORMANCE_MULTIPLIER : ℚ := 1.5

/-- MIN_OPPONENT_MULTIPLIER: 0.8. -/
def MIN_OPPONENT_MULTIPLIER : ℚ := 0.8

/-- MAX_OPPONENT_MULTIPLIER: 1.2. -/
def MAX_OPPONENT_MULTIPLIER : ℚ := 1.2

end MMR_CONFIG

/-- The two draft teams. -/
inductive Team where
  | blue
  | red
deriving DecidableEq, Inhabited

/-- Per-player raw statistics consumed by the rating engine (interface PlayerStats). -/
structure PlayerStats where
  odId : String
  team : Team
  kills : ℚ
  deaths : ℚ
  assists : ℚ
  cs : ℚ
  damage : ℚ
  visionScore : ℚ
  objectiveScore : ℚ
  mmrAtTime : ℚ
deriving DecidableEq

/-- Match-wide context for a rating computation (interface MatchContext). -/
structure MatchContext where
  winner : Team
  blueTeamAvgMmr : ℚ
  redTeamAvgMmr : ℚ
  allPlayerStats : List PlayerStats
deriving DecidableEq

/-- Source helper average(numbers): 0 on the empty list, else sum divided by length. -/
def average (numbers : List ℚ) : ℚ :=
  if numbers.length = 0 then 0 else numbers.sum / numbers.length

/-- Source helper normalizeScore(value, avg): 50 when avg = 0 (division-by-zero
guard), else value / avg * 50 clamped to the interval from 0 to 100. -/
def normalizeScore (value avg : ℚ) : ℚ :=
  if avg = 0 then 50
  else clamp (value / avg * 50) 0 100

/-- Source helper scoreToMultiplier(score) = clamp(0.5 + score / 100, 0.5, 1.5). -/
def scoreToMultiplier (score : ℚ) : ℚ :=
  clamp (0.5 + score / 100) MMR_CONFIG.MIN_PERFORMANCE_MULTIPLIER
    MMR_CONFIG.MAX_PERFORMANCE_MULTIPLIER

/-- interface PerformanceBreakdown: the per-category rounded scores. -/
structure PerformanceBreakdown where
  kdaScore : ℚ
  damageScore : ℚ
  csScore : ℚ
  visionScore : ℚ
  objectiveScore : ℚ
  totalScore : ℚ
  multiplier : ℚ
deriving DecidableEq

/-- Return type of calculatePerformanceScore. -/
structure PerformanceScoreResult where
  score : ℚ
  breakdown : PerformanceBreakdown
deriving DecidableEq

/-- Source function calculatePerformanceScore(playerStats, allStats): averages
each category over allStats, normalizes the player value against the average
(with the guarded KDA ratio when deaths = 0), and combines the five category
scores with the fixed weights. -/
def calculatePerformanceScore (playerStats : PlayerStats) (allStats : List PlayerStats) :
    PerformanceScoreResult :=
  let avgKills := average (allStats.map (fun s => s.kills))
  let avgDeaths := average (allStats.map (fun s => s.deaths))
  let avgAssists := average (allStats.map (fun s => s.assists))
  let avgDamage := average (allStats.map (fun s => s.damage))
  let avgCs := average (allStats.map (fun s => s.cs))
  let avgVision := average (allStats.map (fun s => s.visionScore))
  let avgObjective := average (allStats.map (fun s => s.objectiveScore))
  let playerKda :=
    if playerStats.deaths = 0 then (playerStats.kills + playerStats.assists) * 2
    else (playerStats.kills + playerStats.assists) / playerStats.deaths
  let avgKda :=
    if avgDeaths = 0 then (avgKills + avgAssists) * 2
    else (avgKills + avgAssists) / avgDeaths
  let kdaScore := normalizeScore playerKda avgKda
  let damageScore := normalizeScore playerStats.damage avgDamage
  let csScore := normalizeScore playerStats.cs avgCs
  let visionScoreVal := normalizeScore playerStats.visionScore avgVision
  let objectiveScoreVal := normalizeScore playerStats.objectiveScore avgObjective
  let totalScore :=
    kdaScore * MMR_CONFIG.PERFORMANCE_WEIGHTS.kda
      + damageScore * MMR_CONFIG.PERFORMANCE_WEIGHTS.damage
      + csScore * MMR_CONFIG.PERFORMANCE_WEIGHTS.cs
      + visionScoreVal * MMR_CONFIG.PERFORMANCE_WEIGHTS.vision
      + objectiveScoreVal * MMR_CONFIG.PERFORMANCE_WEIGHTS.objective
  let multiplier := scoreToMultiplier totalScore
  { score := mathRound totalScore
    breakdown :=
      { kdaScore := mathRound kdaScore
        damageScore := mathRound damageScore
        csScore := mathRound csScore
        visionScore := mathRound visionScoreVal
        objectiveScore := mathRound objectiveScoreVal
        totalScore := mathRound totalScore
        multiplier := mathRound (multiplier * 100) / 100 } }

/-- Source function calculateOpponentMultiplier(playerMmr, opponentAvgMmr,
didWin).  The transcendental Math.pow(10, x) is abstracted as the parameter
pow10. -/
def calculateOpponentMultiplier (pow10 : ℚ → ℚ) (playerMmr opponentAvgMmr : ℚ)
    (didWin : Bool) : ℚ :=
  let mmrDiff := opponentAvgMmr - playerMmr
  let expectedWin := 1 / (1 + pow10 (mmrDiff / 400))
  let multiplier :=
    if didWin then 1 + (1 - expectedWin) * 0.4
    else 1 + expectedWin * 0.4
  clamp multiplier MMR_CONFIG.MIN_OPPONENT_MULTIPLIER MMR_CONFIG.MAX_OPPONENT_MULTIPLIER

/-- The change computed by calculateMMRChange before the final Math.round,
following the source statement by statement: base magnitude, win or loss sign,
performance multiplier (the rounded breakdown multiplier), opponent strength
multiplier, and the placement multiplier. -/
def calculateMMRChangePre (pow10 : ℚ → ℚ) (playerStats : PlayerStats)
    (context : MatchContext) (isPlacement : Bool) : ℚ :=
  let didWin := playerStats.team = context.winner
  let breakdown := (calculatePerformanceScore playerStats context.allPlayerStats).breakdown
  let change := MMR_CONFIG.BASE_CHANGE
  let change := change * (if didWin then 1 else -1)
  let performanceMultiplier := breakdown.multiplier
  let change := change * performanceMultiplier
  let opponentTeamAvgMmr :=
    if playerStats.team = Team.blue then context.redTeamAvgMmr else context.blueTeamAvgMmr
  let opponentMultiplier :=
    calculateOpponentMultiplier pow10 playerStats.mmrAtTime opponentTeamAvgMmr didWin
  let change := change * opponentMultiplier
  let change := if isPlacement then change * MMR_CONFIG.PLACEMENT_MULTIPLIER else change
  change

/-- Return type of calculateMMRChange. -/
structure MMRChangeResult where
  change : ℚ
  performanceScore : ℚ
  breakdown : PerformanceBreakdown
deriving DecidableEq

/-- Source function calculateMMRChange(playerStats, context, isPlacement):
the pre-rounding change rounded to a whole number, together with the
performance score and its breakdown. -/
def calculateMMRChange (pow10 : ℚ → ℚ) (playerStats : PlayerStats)
    (context : MatchContext) (isPlacement : Bool) : MMRChangeResult :=
  let perf := calculatePerformanceScore playerStats context.allPlayerStats
  { change := mathRound (calculateMMRChangePre pow10 playerStats context isPlacement)
    performanceScore := perf.score
    breakdown := perf.breakdown }

/-- Source function applyMMRChange(currentMmr, change) =
clamp(currentMmr + change, MIN_MMR, MAX_MMR). -/
def applyMMRChange (currentMmr change : ℚ) : ℚ :=
  clamp (currentMmr + change) MMR_CONFIG.MIN_MMR MMR_CONFIG.MAX_MMR

/-- A concrete stand-in for Math.pow(10, x) that is exact at the only point
where the closed evaluations in this file apply it: Math.pow(10, 0) = 1. -/
def pow10At0 : ℚ → ℚ := fun x => if x = 0 then 1 else 0

/-! ## Draft and queue data model -/

/-- The five fixed queue roles. -/
inductive Role where
  | top
  | jungle
  | mid
  | adc
  | support
deriving DecidableEq

/-- Draft session status. -/
inductive DraftStatus where
  | waiting
  | banning
  | picking
  | completed
  | cancelled
deriving DecidableEq

/-- Action type in the ban and pick sequence. -/
inductive ActionType where
  | ban
  | pick
deriving DecidableEq, Inhabited

/-- One element of the fixed 16-entry action sequence.  championId,
championName and completedAt are null until the action resolves; null is
modelled as none. -/
structure DraftAction where
  phase : Nat
  type : ActionType
  team : Team
  championId : Option String
  championName : Option String
  completedAt : Option Nat
  isActive : Bool
deriving DecidableEq, Inhabited

/-- One roster entry of a draft session.  championId is unset until the pick
for this player resolves. -/
structure DraftPlayer where
  odId : String
  role : Role
  team : Team
  mmr : ℚ
  isReady : Bool
  championId : Option String
  championName : Option String
deriving DecidableEq

/-- A draft session document.  Timestamps are modelled as natural numbers
supplied by the caller in place of FieldValue.serverTimestamp(). -/
structure Draft where
  status : DraftStatus
  currentPhase : Nat
  currentTeam : Team
  phaseType : ActionType
  phaseStartedAt : Nat
  phaseTimeLimit : ℚ
  blueTeam : List DraftPlayer
  redTeam : List DraftPlayer
  blueTeamAvgMmr : ℚ
  redTeamAvgMmr : ℚ
  actions : List DraftAction
  bannedChampions : List String
  cancelReason : Option String
  lobbyName : Option String
  lobbyPassword : Option String
deriving DecidableEq

/-- Error codes of the HttpsError values thrown by the cloud functions. -/
inductive DraftError where
  | unauthenticated
  | invalidArgument
  | notFound
  | failedPrecondition
  | permissionDenied
  | internal
deriving DecidableEq

/-- The ban order of createDraftActions: B R B R B R. -/
def banOrder : List Team :=
  [Team.blue, Team.red, Team.blue, Team.red, Team.blue, Team.red]

/-- The pick order of createDraftActions: B R R B B R R B B R. -/
def pickOrder : List Team :=
  [Team.blue, Team.red, Team.red, Team.blue, Team.blue, Team.red,
   Team.red, Team.blue, Team.blue, Team.red]

/-- Source function createDraftActions(): six bans followed by ten picks;
only the action at index 0 starts active. -/
def createDraftActions : List DraftAction :=
  (banOrder.enum.map fun p =>
    { phase := p.1
      type := ActionType.ban
      team := p.2
      championId := none
      championName := none
      completedAt := none
      isActive := decide (p.1 = 0) })
  ++ (pickOrder.enum.map fun p =>
    { phase := 6 + p.1
      type := ActionType.pick
      team := p.2
      championId := none
      championName := none
      completedAt := none
      isActive := false })

/-- A waiting player in the matchmaking queue.  joinedAt is the join
timestamp; entries are kept in queue-snapshot order (Firestore returns the
documents of a collection get() ordered by document id, here the user id). -/
structure QueueEntry where
  odId : String
  role : Role
  mmr : ℚ
  joinedAt : Nat
deriving DecidableEq

/-- The canonical role order used by tryMatchPlayers and balanceTeams. -/
def roles : List Role := [Role.top, Role.jungle, Role.mid, Role.adc, Role.support]

/-- Grouping of the queue snapshot by role, preserving snapshot order
(the source pushes entries into per-role arrays during a single pass). -/
def playersByRole (queue : List QueueEntry) (r : Role) : List QueueEntry :=
  queue.filter fun e => e.role = r

instance : DecidableRel fun (a b : QueueEntry) => a.mmr ≤ b.mmr :=
  fun a b => inferInstanceAs (Decidable (a.mmr ≤ b.mmr))

instance : IsTotal QueueEntry fun a b => a.mmr ≤ b.mmr :=
  ⟨fun a b => le_total a.mmr b.mmr⟩

instance : IsTrans QueueEntry fun a b => a.mmr ≤ b.mmr :=
  ⟨fun _ _ _ h h' => le_trans h h'⟩

instance : DecidableRel fun (a b : QueueEntry) => b.mmr ≤ a.mmr :=
  fun a b => inferInstanceAs (Decidable (b.mmr ≤ a.mmr))

instance : IsTotal QueueEntry fun a b => b.mmr ≤ a.mmr :=
  ⟨fun a b => le_total b.mmr a.mmr⟩

instance : IsTrans QueueEntry fun a b => b.mmr ≤ a.mmr :=
  ⟨fun _ _ _ h h' => le_trans h' h⟩

/-- The stable ascending sort by mmr, players.sort((a, b) => a.mmr - b.mmr)
in the source.  The ECMAScript sort is required to be stable, so it is
modelled by insertion sort on the non-strict comparison. -/
def sortByMmrAsc (l : List QueueEntry) : List QueueEntry :=
  l.insertionSort fun a b => a.mmr ≤ b.mmr

/-- The stable descending sort by mmr, sort((a, b) => b.mmr - a.mmr) in the
source. -/
def sortByMmrDesc (l : List QueueEntry) : List QueueEntry :=
  l.insertionSort fun a b => b.mmr ≤ a.mmr

/-- One iteration of the role loop in balanceTeams: sort the role pair by
descending mmr and give the higher-rated player to the team whose running
total is not larger (ties go to blue).  The source destructures exactly two
entries; its only caller supplies exactly two entries per role, so shorter
lists are returned unchanged. -/
def balanceStep (acc : List QueueEntry × List QueueEntry) (rolePlayers : List QueueEntry) :
    List QueueEntry × List QueueEntry :=
  match sortByMmrDesc rolePlayers with
  | p1 :: p2 :: _ =>
    let blueTotal := (acc.1.map fun p => p.mmr).sum
    let redTotal := (acc.2.map fun p => p.mmr).sum
    if blueTotal ≤ redTotal then (acc.1 ++ [p1], acc.2 ++ [p2])
    else (acc.1 ++ [p2], acc.2 ++ [p1])
  | _ => acc

/-- Source function balanceTeams(players): processes the roles in canonical
order, maintaining the two rosters and their running mmr totals. -/
def balanceTeams (players : List QueueEntry) : List QueueEntry × List QueueEntry :=
  roles.foldl (fun acc r => balanceStep acc (playersByRole players r)) ([], [])

/-- Conversion of a selected queue entry into a roster entry of the new
draft (the blueTeamPlayers and redTeamPlayers maps in tryMatchPlayers). -/
def mkDraftPlayer (e : QueueEntry) (team : Team) : DraftPlayer :=
  { odId := e.odId
    role := e.role
    team := team
    mmr := e.mmr
    isReady := false
    championId := none
    championName := none }

/-- Source function tryMatchPlayers(): groups the queue snapshot by role,
requires at least two entries per role, takes the first two entries of each
role after the stable ascending mmr sort, balances the ten selected entries
into two teams and creates the draft document in waiting status.  Returns
the selected entries together with the created draft; none models the
found: false result.  The atomic batch that creates the draft and deletes
the ten queue entries is outside this pure model. -/
def tryMatchPlayers (queue : List QueueEntry) (now : Nat) :
    Option (List QueueEntry × Draft) :=
  if roles.all fun r => 2 ≤ (playersByRole queue r).length then
    let selectedPlayers :=
      (roles.map fun r => (sortByMmrAsc (playersByRole queue r)).take 2).flatten
    let teams := balanceTeams selectedPlayers
    let blueTeamPlayers := teams.1.map fun p => mkDraftPlayer p Team.blue
    let redTeamPlayers := teams.2.map fun p => mkDraftPlayer p Team.red
    some (selectedPlayers,
      { status := DraftStatus.waiting
        currentPhase := 0
        currentTeam := Team.blue
        phaseType := ActionType.ban
        phaseStartedAt := now
        phaseTimeLimit := 30
        blueTeam := blueTeamPlayers
        redTeam := redTeamPlayers
        blueTeamAvgMmr := (teams.1.map fun p => p.mmr).sum / 5
        redTeamAvgMmr := (teams.2.map fun p => p.mmr).sum / 5
        actions := createDraftActions
        bannedChampions := []
        cancelReason := none
        lobbyName := none
        lobbyPassword := none })
  else none

/-! ## Draft state machine transitions -/

/-- Source function setDraftReady: only valid while the draft is waiting;
marks the ready flag of the calling participant; when all ten players are
ready the status becomes banning and the phase clock restarts.  Returns the
allReady flag of the response. -/
def setDraftReady (s : Draft) (userId : String) (now : Nat) :
    Except DraftError (Draft × Bool) :=
  if s.status ≠ DraftStatus.waiting then Except.error DraftError.failedPrecondition
  else
    let blueTeam := s.blueTeam.map fun p =>
      if p.odId = userId then { p with isReady := true } else p
    let redTeam := s.redTeam.map fun p =>
      if p.odId = userId then { p with isReady := true } else p
    let found := (s.blueTeam.any fun p => p.odId = userId)
      || (s.redTeam.any fun p => p.odId = userId)
    if found = false then Except.error DraftError.permissionDenied
    else
      let allReady := (blueTeam ++ redTeam).all fun p => p.isReady
      Except.ok
        ({ s with
            blueTeam := blueTeam
            redTeam := redTeam
            status := if allReady then DraftStatus.banning else s.status
            phaseStartedAt := if allReady then now else s.phaseStartedAt },
         allReady)

/-- The champion ids recorded on resolved pick actions: the source filters
actions with type pick and a truthy championId.  Champion ids are written
only by makeDraftAction, which rejects empty strings, so truthiness is
modelled as isSome. -/
def pickedChampions (s : Draft) : List String :=
  (s.actions.filter fun a => a.type = ActionType.pick ∧ a.championId.isSome).filterMap
    fun a => a.championId

/-- FieldValue.arrayUnion(x): appends x if it is not already present. -/
def arrayUnion (l : List String) (x : String) : List String :=
  if l.contains x then l else l ++ [x]

/-- The pick resolution of makeDraftAction: assign the champion to the first
roster entry of the acting team that has no champion yet (the source finds
that entry and replaces exactly it, using object identity).  If every entry
already has a champion the roster is unchanged. -/
def assignFirstUnpicked (l : List DraftPlayer) (championId championName : String) :
    List DraftPlayer :=
  match l with
  | [] => []
  | p :: rest =>
    if p.championId = none then
      { p with championId := some championId, championName := some championName } :: rest
    else p :: assignFirstUnpicked rest championId championName

/-- Response payload of makeDraftAction. -/
structure ActionResult where
  nextPhase : Option Nat
  completed : Bool
deriving DecidableEq

/-- The success path of makeDraftAction, given the active action at the
current phase index: resolve the action, record a ban in bannedChampions or
assign a pick to the first unpicked roster entry, then either complete the
draft (past the last index) or activate the next action, restarting the
phase clock and switching the status to picking when the next action is the
first pick after the ban phase.  The generated lobby credentials set on
completion are supplied as parameters in place of the draftId slice and
Math.random. -/
def applyDraftAction (s : Draft) (currentAction : DraftAction)
    (championId championName : String) (now : Nat)
    (lobbyName lobbyPassword : String) : Draft × ActionResult :=
  let currentPhase := s.currentPhase
  let newAction :=
    { currentAction with
        championId := some championId
        championName := some championName
        completedAt := some now
        isActive := false }
  let actions := s.actions.set currentPhase newAction
  let bannedChampions :=
    if currentAction.type = ActionType.ban then arrayUnion s.bannedChampions championId
    else s.bannedChampions
  let teams :=
    if currentAction.type = ActionType.pick then
      if currentAction.team = Team.blue then
        (assignFirstUnpicked s.blueTeam championId championName, s.redTeam)
      else
        (s.blueTeam, assignFirstUnpicked s.redTeam championId championName)
    else (s.blueTeam, s.redTeam)
  let nextPhase := currentPhase + 1
  if nextPhase ≥ actions.length then
    ({ s with
        actions := actions
        blueTeam := teams.1
        redTeam := teams.2
        bannedChampions := bannedChampions
        status := DraftStatus.completed
        currentPhase := currentPhase
        lobbyName := some lobbyName
        lobbyPassword := some lobbyPassword },
     { nextPhase := none, completed := true })
  else
    let nextAction := actions.getD nextPhase default
    let actions2 := actions.set nextPhase { nextAction with isActive := true }
    ({ s with
        actions := actions2
        blueTeam := teams.1
        redTeam := teams.2
        bannedChampions := bannedChampions
        currentPhase := nextPhase
        currentTeam := nextAction.team
        phaseType := nextAction.type
        phaseStartedAt := now
        status :=
          if nextAction.type = ActionType.pick ∧ s.status = DraftStatus.banning then
            DraftStatus.picking
          else s.status },
     { nextPhase := some nextPhase, completed := false })

/-- Source function makeDraftAction, the body of the Firestore transaction:
validates the input, the session status, the active action at the current
phase index, the team of the caller and the cumulative ban and pick set, and
only then mutates the session via applyDraftAction.  Every validation
failure throws, which aborts the transaction and leaves the session
unchanged. -/
def makeDraftAction (s : Draft) (userId championId championName : String) (now : Nat)
    (lobbyName lobbyPassword : String) :
    Except DraftError (Draft × ActionResult) :=
  if championId = "" ∨ championName = "" then Except.error DraftError.invalidArgument
  else if ¬(s.status = DraftStatus.banning ∨ s.status = DraftStatus.picking) then
    Except.error DraftError.failedPrecondition
  else
    match s.actions[s.currentPhase]? with
    | none => Except.error DraftError.failedPrecondition
    | some currentAction =>
      if currentAction.isActive = false then Except.error DraftError.failedPrecondition
      else
        let playerTeam : Option Team :=
          if s.blueTeam.any fun p => p.odId = userId then some Team.blue
          else if s.redTeam.any fun p => p.odId = userId then some Team.red
          else none
        match playerTeam with
        | none => Except.error DraftError.permissionDenied
        | some pt =>
          if currentAction.team ≠ pt then Except.error DraftError.permissionDenied
          else if s.bannedChampions.contains championId
              ∨ (pickedChampions s).contains championId then
            Except.error DraftError.invalidArgument
          else
            Except.ok (applyDraftAction s currentAction championId championName now
              lobbyName lobbyPassword)

/-- Source function timeoutDraftAction: after the existence and participant
checks it unconditionally sets status to cancelled with a timeout reason.
The source reads neither the session status nor the phase clock. -/
def timeoutDraftAction (s : Draft) (userId : String) : Except DraftError Draft :=
  let isParticipant := (s.blueTeam.any fun p => p.odId = userId)
    || (s.redTeam.any fun p => p.odId = userId)
  if isParticipant = false then Except.error DraftError.permissionDenied
  else Except.ok { s with status := DraftStatus.cancelled, cancelReason := some "timeout" }

/-! ## Match submission and its persistence structure -/

/-- The raw statistics block submitted for one player (the stats field of
SubmitMatchResultData entries). -/
structure MatchPlayerStatsInput where
  champion : String
  kills : ℚ
  deaths : ℚ
  assists : ℚ
  cs : ℚ
  damage : ℚ
  visionScore : ℚ
  objectiveScore : ℚ
deriving DecidableEq

/-- One submitted team entry of SubmitMatchResultData. -/
structure MatchPlayerInput where
  odId : String
  oduid : String
  displayName : String
  role : String
  stats : MatchPlayerStatsInput
deriving DecidableEq

/-- One Firestore document write performed by submitMatchResult.  The match
document is abbreviated to the fields the claims speak about: its id, the
winner, the mmrProcessed flag and the number of per-player stat lines; an
mmr document write carries the player id, the new rating and the applied
change. -/
inductive FirestoreWrite where
  | matchDoc (matchId : String) (winner : Team) (mmrProcessed : Bool) (playerCount : Nat)
  | mmrDoc (odId : String) (newMmr : ℚ) (change : ℚ)
deriving DecidableEq

/-- Whether a write is the match document write. -/
def FirestoreWrite.isMatchDoc : FirestoreWrite → Bool
  | .matchDoc .. => true
  | _ => false

/-- Whether a write is a player rating update. -/
def FirestoreWrite.isMmrDoc : FirestoreWrite → Bool
  | .mmrDoc .. => true
  | _ => false

/-- The conversion of a submitted team entry into PlayerStats (the
allPlayerStats maps in submitMatchResult). -/
def toPlayerStats (playerMmr : String → ℚ) (team : Team) (p : MatchPlayerInput) :
    PlayerStats :=
  { odId := p.odId
    team := team
    kills := p.stats.kills
    deaths := p.stats.deaths
    assists := p.stats.assists
    cs := p.stats.cs
    damage := p.stats.damage
    visionScore := p.stats.visionScore
    objectiveScore := p.stats.objectiveScore
    mmrAtTime := playerMmr p.odId }

/-- The persistence structure of submitMatchResult.  playerMmr and
playerPlacement stand for the per-player mmr documents read before the
computation (current rating, and whether placementGamesPlayed has reached
PLACEMENT_GAMES).  The result is the sequence of atomic commit units the
source awaits, in program order: the source first awaits matchRef.set (the
match document, created with mmrProcessed: true), and then awaits
batch.commit() with the ten rating updates.  These are two independent
commits, not one transaction; an outer list of length two therefore means
the match write and the rating writes are not a single atomic unit. -/
def submitMatchResult (winner : Team) (blueTeam redTeam : List MatchPlayerInput)
    (playerMmr : String → ℚ) (playerPlacement : String → Bool) (pow10 : ℚ → ℚ)
    (matchId : String) : Except DraftError (List (List FirestoreWrite)) :=
  if ¬(blueTeam.length = 5 ∧ redTeam.length = 5) then
    Except.error DraftError.invalidArgument
  else
    let blueTeamAvgMmr := ((blueTeam.map fun p => playerMmr p.odId).sum) / 5
    let redTeamAvgMmr := ((redTeam.map fun p => playerMmr p.odId).sum) / 5
    let allPlayerStats :=
      blueTeam.map (toPlayerStats playerMmr Team.blue)
        ++ redTeam.map (toPlayerStats playerMmr Team.red)
    let context : MatchContext :=
      { winner := winner
        blueTeamAvgMmr := blueTeamAvgMmr
        redTeamAvgMmr := redTeamAvgMmr
        allPlayerStats := allPlayerStats }
    let matchCommit :=
      [FirestoreWrite.matchDoc matchId winner true allPlayerStats.length]
    let batchCommit := allPlayerStats.map fun ps =>
      let isPlacement := !(playerPlacement ps.odId)
      let change := (calculateMMRChange pow10 ps context isPlacement).change
      FirestoreWrite.mmrDoc ps.odId (applyMMRChange (playerMmr ps.odId) change) change
    Except.ok [matchCommit, batchCommit]

/-! ## Reachability and invariants of the draft state machine -/

/-- One successful transition of the draft state machine: a ready call, an
action submission, or a timeout call. -/
inductive DraftStep : Draft → Draft → Prop where
  | ready {s s' : Draft} (userId : String) (now : Nat) (allReady : Bool) :
      setDraftReady s userId now = Except.ok (s', allReady) → DraftStep s s'
  | action {s s' : Draft} (userId championId championName : String) (now : Nat)
      (lobbyName lobbyPassword : String) (r : ActionResult) :
      makeDraftAction s userId championId championName now lobbyName lobbyPassword
        = Except.ok (s', r) → DraftStep s s'
  | timeout {s s' : Draft} (userId : String) :
      timeoutDraftAction s userId = Except.ok s' → DraftStep s s'

/-- The shape of a freshly created draft session: waiting status, phase
index 0, and the fixed 16-entry action template. -/
def DraftInit (s : Draft) : Prop :=
  s.status = DraftStatus.waiting ∧ s.currentPhase = 0 ∧ s.actions = createDraftActions

/-- The action at index k is the unique active one: every index of the
sequence holds an action whose active flag is set exactly at k. -/
def activeExactly (l : List DraftAction) (k : Nat) : Prop :=
  ∀ i, i < l.length → (l[i]?.map fun a => a.isActive) = some (decide (i = k))

/-- The machine invariant: the action sequence keeps its 16 entries; while
waiting, the phase index is 0 and index 0 is the unique active action;
while banning or picking, the phase index is in range and is the unique
active index. -/
def DraftInv (s : Draft) : Prop :=
  s.actions.length = 16
  ∧ (s.status = DraftStatus.waiting → s.currentPhase = 0 ∧ activeExactly s.actions 0)
  ∧ ((s.status = DraftStatus.banning ∨ s.status = DraftStatus.picking) →
      s.currentPhase < 16 ∧ activeExactly s.actions s.currentPhase)

/-! ## Concrete instances used in closed theorems and witnesses -/

/-- Ten identical stat lines: an exactly average performance in every
category, so the performance score is exactly 50. -/
def mkStats (odId : String) (team : Team) : PlayerStats :=
  { odId := odId
    team := team
    kills := 5
    deaths := 5
    assists := 5
    cs := 100
    damage := 10000
    visionScore := 20
    objectiveScore := 10
    mmrAtTime := 1000 }

/-- The ten stat lines of the reference match: five blue, five red, all
identical. -/
def allStats0 : List PlayerStats :=
  [mkStats "b1" Team.blue, mkStats "b2" Team.blue, mkStats "b3" Team.blue,
   mkStats "b4" Team.blue, mkStats "b5" Team.blue,
   mkStats "r1" Team.red, mkStats "r2" Team.red, mkStats "r3" Team.red,
   mkStats "r4" Team.red, mkStats "r5" Team.red]

/-- The stat line of the reference player: on the blue team, rating 1000. -/
def ps0 : PlayerStats := mkStats "b1" Team.blue

/-- The reference match context: blue wins, both teams average 1000. -/
def ctx0 : MatchContext :=
  { winner := Team.blue
    blueTeamAvgMmr := 1000
    redTeamAvgMmr := 1000
    allPlayerStats := allStats0 }

/-- A roster entry for concrete drafts. -/
def mkDrafter (odId : String) (role : Role) (team : Team) (ready : Bool) : DraftPlayer :=
  { odId := odId
    role := role
    team := team
    mmr := 1000
    isReady := ready
    championId := none
    championName := none }

/-- A freshly created draft session with rosters b1..b5 and r1..r5. -/
def d0 : Draft :=
  { status := DraftStatus.waiting
    currentPhase := 0
    currentTeam := Team.blue
    phaseType := ActionType.ban
    phaseStartedAt := 0
    phaseTimeLimit := 30
    blueTeam :=
      [mkDrafter "b1" Role.top Team.blue false, mkDrafter "b2" Role.jungle Team.blue false,
       mkDrafter "b3" Role.mid Team.blue false, mkDrafter "b4" Role.adc Team.blue false,
       mkDrafter "b5" Role.support Team.blue false]
    redTeam :=
      [mkDrafter "r1" Role.top Team.red false, mkDrafter "r2" Role.jungle Team.red false,
       mkDrafter "r3" Role.mid Team.red false, mkDrafter "r4" Role.adc Team.red false,
       mkDrafter "r5" Role.support Team.red false]
    blueTeamAvgMmr := 1000
    redTeamAvgMmr := 1000
    actions := createDraftActions
    bannedChampions := []
    cancelReason := none
    lobbyName := none
    lobbyPassword := none }

/-- The same session once every player has readied up: banning status. -/
def dBanning : Draft :=
  { d0 with
      status := DraftStatus.banning
      blueTeam := d0.blueTeam.map fun p => { p with isReady := true }
      redTeam := d0.redTeam.map fun p => { p with isReady := true } }

/-- A completed draft session (terminal per the specification). -/
def dCompleted : Draft :=
  { dBanning with
      status := DraftStatus.completed
      lobbyName := some "Drafty-lobby"
      lobbyPassword := some "secret" }

/-- The result of a valid first ban on dBanning by blue player b1. -/
def out1 : Draft × ActionResult :=
  ((makeDraftAction dBanning "b1" "Aatrox" "Aatrox" 5 "Drafty-lobby" "secret").toOption).getD
    (dBanning, { nextPhase := none, completed := false })

/-- A submitted team entry with the identical reference stat line. -/
def mkMatchInput (odId : String) : MatchPlayerInput :=
  { odId := odId
    oduid := odId
    displayName := odId
    role := "top"
    stats :=
      { champion := "Ahri"
        kills := 5
        deaths := 5
        assists := 5
        cs := 100
        damage := 10000
        visionScore := 20
        objectiveScore := 10 } }

/-- The submitted blue team of the reference match. -/
def blue5 : List MatchPlayerInput := ["b1", "b2", "b3", "b4", "b5"].map mkMatchInput

/-- The submitted red team of the reference match. -/
def red5 : List MatchPlayerInput := ["r1", "r2", "r3", "r4", "r5"].map mkMatchInput

/-- The commit sequence submitMatchResult performs on the reference match:
all ten current ratings are 1000 and every player is out of placement. -/
def commits0 : List (List FirestoreWrite) :=
  ((submitMatchResult Team.blue blue5 red5 (fun _ => 1000) (fun _ => true) pow10At0
      "m1").toOption).getD []

/-- The two entries tryMatchPlayers selects for a role: the first two of
the stable ascending mmr sort of the role group. -/
def selectedForRole (queue : List QueueEntry) (r : Role) : List QueueEntry :=
  (sortByMmrAsc (playersByRole queue r)).take 2

/-- The rating gap inside a role pair: the difference between the two top
entries after the descending sort (0 for degenerate inputs). -/
def roleGap (l : List QueueEntry) : ℚ :=
  match sortByMmrDesc l with
  | p1 :: p2 :: _ => p1.mmr - p2.mmr
  | _ => 0

/-- The largest per-role rating gap of a ten-player selection. -/
def maxRoleGap (players : List QueueEntry) : ℚ :=
  (roles.map fun r => roleGap (playersByRole players r)).foldr max 0

/-- The team average rating as the source computes it: the mmr sum divided
by the literal 5. -/
def teamAvgMmr (l : List QueueEntry) : ℚ := (l.map fun p => p.mmr).sum / 5

/-- A queue entry for the concrete matchmaking scenarios. -/
def mkEntry (odId : String) (role : Role) (mmr : ℚ) (joinedAt : Nat) : QueueEntry :=
  { odId := odId, role := role, mmr := mmr, joinedAt := joinedAt }

/-- Top laner who joined last (timestamp 30) but sorts first in the
queue snapshot (document-id order). -/
def tA : QueueEntry := mkEntry "a01" Role.top 800 30

/-- Top laner who joined first (timestamp 10). -/
def tB : QueueEntry := mkEntry "a02" Role.top 800 10

/-- Top laner who joined second (timestamp 20) and is skipped by the
selection despite joining before tA. -/
def tC : QueueEntry := mkEntry "a03" Role.top 800 20

/-- The counterexample queue snapshot: three equal-rating top laners in
document-id order plus two entries for every other role. -/
def q0 : List QueueEntry :=
  [tA, tB, tC,
   mkEntry "a04" Role.jungle 900 1, mkEntry "a05" Role.jungle 700 2,
   mkEntry "a06" Role.mid 800 3, mkEntry "a07" Role.mid 1000 4,
   mkEntry "a08" Role.adc 600 5, mkEntry "a09" Role.adc 1100 6,
   mkEntry "a10" Role.support 950 7, mkEntry "a11" Role.support 850 8]

/-- Ten players, two per role, used as the balancing witness input. -/
def p10 : List QueueEntry :=
  [mkEntry "w01" Role.top 1200 1, mkEntry "w02" Role.top 1000 2,
   mkEntry "w03" Role.jungle 900 3, mkEntry "w04" Role.jungle 800 4,
   mkEntry "w05" Role.mid 1100 5, mkEntry "w06" Role.mid 700 6,
   mkEntry "w07" Role.adc 1050 7, mkEntry "w08" Role.adc 950 8,
   mkEntry "w09" Role.support 850 9, mkEntry "w10" Role.support 750 10]

/-! ## Theorems -/

/-- C8: createDraftActions returns the fixed 16-entry template with indices
0 to 15, bans at indices 0 to 5 alternating blue, red, blue, red, blue, red,
picks at indices 6 to 15 following blue, red, red, blue, blue, red, red,
blue, blue, red, and only index 0 (a ban for team blue) active. -/
theorem createDraftActions_template :
    createDraftActions.length = 16
    ∧ (createDraftActions.map fun a => a.phase) = List.range 16
    ∧ (createDraftActions.map fun a => a.type)
        = List.replicate 6 ActionType.ban ++ List.replicate 10 ActionType.pick
    ∧ (createDraftActions.map fun a => a.team)
        = [Team.blue, Team.red, Team.blue, Team.red, Team.blue, Team.red,
           Team.blue, Team.red, Team.red, Team.blue, Team.blue, Team.red,
           Team.red, Team.blue, Team.blue, Team.red]
    ∧ (createDraftActions.map fun a => a.isActive) = true :: List.replicate 15 false := by
  decide

/-- C9: placement exactly doubles the rating change before the final
rounding: for every pow10 model, every stat line and every context the
pre-rounding change with isPlacement true equals twice the pre-rounding
change with isPlacement false. -/
theorem placement_doubling (pow10 : ℚ → ℚ) (ps : PlayerStats) (ctx : MatchContext) :
    calculateMMRChangePre pow10 ps ctx true = 2 * calculateMMRChangePre pow10 ps ctx false := by
  simp only [calculateMMRChangePre, MMR_CONFIG.PLACEMENT_MULTIPLIER]
  norm_num
  ring_nf

/-- The lower clamp bound is respected. -/
lemma le_clamp (value lo hi : ℚ) : lo ≤ clamp value lo hi := le_max_left _ _

/-- The upper clamp bound is respected when the interval is nonempty. -/
lemma clamp_le (value lo hi : ℚ) (h : lo ≤ hi) : clamp value lo hi ≤ hi :=
  max_le h (min_le_left _ _)

/-- Math.round keeps nonnegative values nonnegative. -/
lemma mathRound_nonneg {x : ℚ} (h : 0 ≤ x) : 0 ≤ mathRound x := by
  unfold mathRound
  have : (0 : ℤ) ≤ ⌊x + 1/2⌋ := Int.floor_nonneg.mpr (by linarith)
  exact_mod_cast this

/-- Math.round of a value at most 100 is at most 100. -/
lemma mathRound_le_100 {x : ℚ} (h : x ≤ 100) : mathRound x ≤ 100 := by
  unfold mathRound
  have h1 : ⌊x + 1/2⌋ ≤ ⌊(201 : ℚ)/2⌋ := Int.floor_le_floor (by linarith)
  have h2 : ⌊(201 : ℚ)/2⌋ = 100 := by norm_num [Int.floor_eq_iff]
  have : (⌊x + 1/2⌋ : ℤ) ≤ 100 := by omega
  exact_mod_cast this

/-- normalizeScore always lands in the interval from 0 to 100. -/
lemma normalizeScore_bounds (value avg : ℚ) :
    0 ≤ normalizeScore value avg ∧ normalizeScore value avg ≤ 100 := by
  unfold normalizeScore
  split
  · norm_num
  · exact ⟨le_clamp _ _ _, clamp_le _ _ _ (by norm_num)⟩

/-- C10: the performance normalization is total and bounded: for every value
and every average, normalizeScore is within 0 and 100; when the match-wide
average is 0 the guarded result is exactly 50 (no division by zero); and
every rounded per-category score in a calculatePerformanceScore breakdown is
within 0 and 100. -/
theorem normalizeScore_total_bounded :
    (∀ value avg : ℚ,
      (0 ≤ normalizeScore value avg ∧ normalizeScore value avg ≤ 100)
      ∧ normalizeScore value 0 = 50)
    ∧ ∀ (ps : PlayerStats) (all : List PlayerStats),
        let b := (calculatePerformanceScore ps all).breakdown
        (0 ≤ b.kdaScore ∧ b.kdaScore ≤ 100)
        ∧ (0 ≤ b.damageScore ∧ b.damageScore ≤ 100)
        ∧ (0 ≤ b.csScore ∧ b.csScore ≤ 100)
        ∧ (0 ≤ b.visionScore ∧ b.visionScore ≤ 100)
        ∧ (0 ≤ b.objectiveScore ∧ b.objectiveScore ≤ 100) := by
  constructor
  · intro value avg
    exact ⟨normalizeScore_bounds value avg, by unfold normalizeScore; norm_num⟩
  · intro ps all
    simp only [calculatePerformanceScore]
    refine ⟨⟨?_, ?_⟩, ⟨?_, ?_⟩, ⟨?_, ?_⟩, ⟨?_, ?_⟩, ⟨?_, ?_⟩⟩ <;>
      first
        | exact mathRound_nonneg (normalizeScore_bounds _ _).1
        | exact mathRound_le_100 (normalizeScore_bounds _ _).2

/-- Against an opponent team of exactly equal average rating the opponent
multiplier of the source formula is 1.2, for a win and for a loss alike:
the expected-win probability is 1/2, so the raw multiplier is
1 + 0.5 * 0.4 = 1.2, which the clamp to the interval from 0.8 to 1.2 keeps. -/
lemma calculateOpponentMultiplier_equal (pow10 : ℚ → ℚ) (h : pow10 0 = 1) (m : ℚ)
    (didWin : Bool) : calculateOpponentMultiplier pow10 m m didWin = 1.2 := by
  unfold calculateOpponentMultiplier
  simp only []
  have hd : (m - m) / 400 = 0 := by ring
  rw [hd, h]
  cases didWin <;> norm_num [clamp, MMR_CONFIG.MIN_OPPONENT_MULTIPLIER,
    MMR_CONFIG.MAX_OPPONENT_MULTIPLIER]

unseal Rat.add Rat.mul Rat.inv Rat.sub Rat.ofScientific in
/-- C2 counterexample: the reference player has rating 1000, wins with a
performance score of exactly 50 against an opponent team averaging 1000 and
is out of placement, yet the computed change is 30, not the claimed
BASE_CHANGE of 25, because the opponent multiplier at equal rating is 1.2
rather than 1.0.  pow10At0 agrees with Math.pow(10, x) at the only point
used, x = 0. -/
theorem mmr_equal_rating_counterexample :
    (calculatePerformanceScore ps0 ctx0.allPlayerStats).score = 50
    ∧ ps0.mmrAtTime = 1000 ∧ ctx0.blueTeamAvgMmr = 1000 ∧ ctx0.redTeamAvgMmr = 1000
    ∧ ps0.team = ctx0.winner
    ∧ pow10At0 0 = 1
    ∧ (calculateMMRChange pow10At0 ps0 ctx0 false).change = 30
    ∧ ¬(calculateMMRChange pow10At0 ps0 ctx0 false).change = 25
    ∧ applyMMRChange ps0.mmrAtTime ((calculateMMRChange pow10At0 ps0 ctx0 false).change)
        = 1030 := by
  decide

unseal Rat.add Rat.mul Rat.inv Rat.sub Rat.ofScientific in
/-- C2 amended: for the reference scenario (rating 1000, win, performance
score exactly 50, opponent average 1000, outside placement) and any model of
Math.pow(10, x) that is exact at x = 0, the opponent multiplier is 1.2 (the
formula 1 + (1 - 0.5) * 0.4 already sits at the upper clamp bound), so the
change is round(25 * 1 * 1.0 * 1.2) = 30 and the new rating is 1030. -/
theorem mmr_equal_rating_change (pow10 : ℚ → ℚ) (h : pow10 0 = 1) :
    calculateOpponentMultiplier pow10 1000 1000 true = 1.2
    ∧ (calculateMMRChange pow10 ps0 ctx0 false).change = 30
    ∧ applyMMRChange ps0.mmrAtTime ((calculateMMRChange pow10 ps0 ctx0 false).change)
        = 1030 := by
  have hopp := calculateOpponentMultiplier_equal pow10 h 1000 true
  have hmult : (calculatePerformanceScore ps0 ctx0.allPlayerStats).breakdown.multiplier = 1 := by
    decide
  have hpre : calculateMMRChangePre pow10 ps0 ctx0 false = 30 := by
    have h1 : ps0.team = Team.blue := rfl
    have h2 : ctx0.winner = Team.blue := rfl
    have h3 : ps0.mmrAtTime = 1000 := rfl
    have h4 : ctx0.redTeamAvgMmr = 1000 := rfl
    simp only [calculateMMRChangePre, h1, h2, h3, h4, hmult]
    norm_num [hopp, MMR_CONFIG.BASE_CHANGE]
  have hchange : (calculateMMRChange pow10 ps0 ctx0 false).change = 30 := by
    simp only [calculateMMRChange]
    rw [hpre]
    decide
  refine ⟨hopp, hchange, ?_⟩
  rw [hchange]
  decide

/-- C2 witness: the amended statement instantiated at the concrete pow10
model that agrees with Math.pow(10, x) at x = 0. -/
theorem mmr_equal_rating_change_witness :
    pow10At0 0 = 1
    ∧ (calculateOpponentMultiplier pow10At0 1000 1000 true = 1.2
      ∧ (calculateMMRChange pow10At0 ps0 ctx0 false).change = 30
      ∧ applyMMRChange ps0.mmrAtTime ((calculateMMRChange pow10At0 ps0 ctx0 false).change)
          = 1030) :=
  ⟨by norm_num [pow10At0], mmr_equal_rating_change pow10At0 (by norm_num [pow10At0])⟩

/-- C4: the timeout transition mutates a completed session.  The source
timeoutDraftAction checks only that the caller participates: it reads
neither the status nor the phase clock, so a call on a completed (terminal,
supposedly immutable) session rewrites it to cancelled with a timeout
reason. -/
theorem timeoutDraftAction_cancels_completed :
    dCompleted.status = DraftStatus.completed
    ∧ timeoutDraftAction dCompleted "b1"
        = Except.ok { dCompleted with
            status := DraftStatus.cancelled
            cancelReason := some "timeout" }
    ∧ ({ dCompleted with
          status := DraftStatus.cancelled
          cancelReason := some "timeout" } : Draft) ≠ dCompleted := by
  refine ⟨rfl, rfl, ?_⟩
  decide

unseal Rat.add Rat.mul Rat.inv Rat.sub Rat.ofScientific in
/-- C3: submitMatchResult persists the reference match in two separate
commit units: the first await writes only the match document (already
carrying mmrProcessed = true) and the second await writes the ten rating
updates.  The match write and the rating writes are therefore not one
atomic unit: a failure between the two commits leaves the match persisted
with no rating update applied. -/
theorem submitMatchResult_not_atomic :
    commits0.length = 2
    ∧ commits0.getD 0 [] = [FirestoreWrite.matchDoc "m1" Team.blue true 10]
    ∧ ((commits0.getD 0 []).all fun w => w.isMatchDoc) = true
    ∧ (commits0.getD 1 []).length = 10
    ∧ ((commits0.getD 1 []).all fun w => w.isMmrDoc) = true
    ∧ commits0.getD 1 []
        = (blue5.map fun p => FirestoreWrite.mmrDoc p.odId 1030 30)
          ++ (red5.map fun p => FirestoreWrite.mmrDoc p.odId 970 (-30)) := by
  set_option maxRecDepth 4000 in decide

/-- After the success path of a draft action, the acted phase index holds a
resolved, inactive action, and the phase index either advances by one or
stays put with the session completed. -/
lemma applyDraftAction_post (s : Draft) (currentAction : DraftAction)
    (championId championName : String) (now : Nat) (lobbyName lobbyPassword : String)
    (hcp : s.currentPhase < s.actions.length) :
    ((applyDraftAction s currentAction championId championName now lobbyName
        lobbyPassword).1.actions[s.currentPhase]?.map fun a => a.isActive) = some false
    ∧ ((applyDraftAction s currentAction championId championName now lobbyName
          lobbyPassword).1.currentPhase = s.currentPhase + 1
        ∨ ((applyDraftAction s currentAction championId championName now lobbyName
              lobbyPassword).1.currentPhase = s.currentPhase
          ∧ (applyDraftAction s currentAction championId championName now lobbyName
              lobbyPassword).1.status = DraftStatus.completed)) := by
  unfold applyDraftAction
  simp only []
  split
  · constructor
    · rw [List.getElem?_set_self (by simpa using hcp)]
      rfl
    · right
      exact ⟨rfl, rfl⟩
  · constructor
    · rw [List.getElem?_set_ne (by omega), List.getElem?_set_self (by simpa using hcp)]
      rfl
    · left
      rfl


/-- C1: a makeDraftAction call succeeds only when the session status is
banning or picking, the action at the current phase index exists and is
active, the caller belongs to the team of that action, and the submitted
champion id is in neither the cumulative ban list nor the resolved picks;
any violation is rejected with an error, which aborts the enclosing
Firestore transaction and leaves the session unchanged (in this embedding
an error result carries no successor state at all).  On success the acted
phase becomes inactive and the phase index advances, or the session
completes at the final index, so a second submission for the same phase
index can never succeed. -/
theorem makeDraftAction_preconditions
    (s : Draft) (userId championId championName : String) (now : Nat)
    (lobbyName lobbyPassword : String) (out : Draft × ActionResult)
    (h : makeDraftAction s userId championId championName now lobbyName lobbyPassword
        = Except.ok out) :
    (s.status = DraftStatus.banning ∨ s.status = DraftStatus.picking)
    ∧ (∃ a, s.actions[s.currentPhase]? = some a ∧ a.isActive = true
        ∧ ((a.team = Team.blue ∧ (s.blueTeam.any fun p => p.odId = userId) = true)
          ∨ (a.team = Team.red ∧ (s.redTeam.any fun p => p.odId = userId) = true)))
    ∧ s.bannedChampions.contains championId = false
    ∧ (pickedChampions s).contains championId = false
    ∧ (out.1.actions[s.currentPhase]?.map fun a => a.isActive) = some false
    ∧ (out.1.currentPhase = s.currentPhase + 1
        ∨ (out.1.currentPhase = s.currentPhase
          ∧ out.1.status = DraftStatus.completed)) := by
  unfold makeDraftAction at h
  split at h
  · exact absurd h (by simp)
  split at h
  · exact absurd h (by simp)
  rename_i hstatus
  rw [not_not] at hstatus
  split at h
  · exact absurd h (by simp)
  rename_i currentAction hget
  split at h
  · exact absurd h (by simp)
  rename_i hactive
  have hcp : s.currentPhase < s.actions.length := by
    rcases List.getElem?_eq_some.mp hget with ⟨hlt, _⟩
    exact hlt
  have hactive' : currentAction.isActive = true := by
    revert hactive
    cases currentAction.isActive <;> simp
  have hpost := applyDraftAction_post s currentAction championId championName now
    lobbyName lobbyPassword hcp
  split at h
  next hblue =>
    simp only [] at h
    split at h
    · exact absurd h (by simp)
    rename_i hteam
    split at h
    · exact absurd h (by simp)
    rename_i hdup
    rw [not_ne_iff] at hteam
    injection h with h2
    subst h2
    simp only [not_or, Bool.not_eq_true] at hdup
    exact ⟨hstatus, ⟨currentAction, hget, hactive', Or.inl ⟨hteam, hblue⟩⟩,
      hdup.1, hdup.2, hpost.1, hpost.2⟩
  next hblue =>
    split at h
    next hred =>
      simp only [] at h
      split at h
      · exact absurd h (by simp)
      rename_i hteam
      split at h
      · exact absurd h (by simp)
      rename_i hdup
      rw [not_ne_iff] at hteam
      injection h with h2
      subst h2
      simp only [not_or, Bool.not_eq_true] at hdup
      exact ⟨hstatus, ⟨currentAction, hget, hactive', Or.inr ⟨hteam, hred⟩⟩,
        hdup.1, hdup.2, hpost.1, hpost.2⟩
    next hred =>
      simp only [] at h
      exact absurd h (by simp)

/-- C1 witness: the preconditions theorem applied to a concrete banning
session in which blue player b1 successfully bans Aatrox at phase 0. -/
theorem makeDraftAction_preconditions_witness :
    (dBanning.status = DraftStatus.banning ∨ dBanning.status = DraftStatus.picking)
    ∧ (∃ a, dBanning.actions[dBanning.currentPhase]? = some a ∧ a.isActive = true
        ∧ ((a.team = Team.blue ∧ (dBanning.blueTeam.any fun p => p.odId = "b1") = true)
          ∨ (a.team = Team.red ∧ (dBanning.redTeam.any fun p => p.odId = "b1") = true)))
    ∧ dBanning.bannedChampions.contains "Aatrox" = false
    ∧ (pickedChampions dBanning).contains "Aatrox" = false
    ∧ (out1.1.actions[dBanning.currentPhase]?.map fun a => a.isActive) = some false
    ∧ (out1.1.currentPhase = dBanning.currentPhase + 1
        ∨ (out1.1.currentPhase = dBanning.currentPhase
          ∧ out1.1.status = DraftStatus.completed)) :=
  makeDraftAction_preconditions dBanning "b1" "Aatrox" "Aatrox" 5 "Drafty-lobby" "secret"
    out1 rfl

/-- Inversion of a successful ready call: the session was waiting, the
action sequence and phase index are untouched, and the status either moved
to banning (all ready) or stayed as it was. -/
lemma setDraftReady_ok_inv {s s' : Draft} {userId : String} {now : Nat} {b : Bool}
    (h : setDraftReady s userId now = Except.ok (s', b)) :
    s.status = DraftStatus.waiting
    ∧ s'.actions = s.actions
    ∧ s'.currentPhase = s.currentPhase
    ∧ (s'.status = DraftStatus.banning ∨ s'.status = s.status) := by
  unfold setDraftReady at h
  split at h
  · exact absurd h (by simp)
  rename_i hstatus
  rw [not_ne_iff] at hstatus
  simp only [] at h
  split at h
  · exact absurd h (by simp)
  injection h with h2
  have hfst := congrArg Prod.fst h2
  subst hfst
  refine ⟨hstatus, rfl, rfl, ?_⟩
  simp only []
  split
  · exact Or.inl rfl
  · exact Or.inr rfl

/-- Inversion of a successful timeout call: the status becomes cancelled
and the action sequence and phase index are untouched. -/
lemma timeoutDraftAction_ok_inv {s s' : Draft} {userId : String}
    (h : timeoutDraftAction s userId = Except.ok s') :
    s'.status = DraftStatus.cancelled
    ∧ s'.actions = s.actions
    ∧ s'.currentPhase = s.currentPhase := by
  unfold timeoutDraftAction at h
  simp only [] at h
  split at h
  · exact absurd h (by simp)
  injection h with h2
  subst h2
  exact ⟨rfl, rfl, rfl⟩

/-- Inversion of a successful action submission: the session was banning or
picking, the current phase index held an action, and the result is the
success path applied to that action. -/
lemma makeDraftAction_ok_shape {s : Draft} {userId championId championName : String}
    {now : Nat} {lobbyName lobbyPassword : String} {s' : Draft} {r : ActionResult}
    (h : makeDraftAction s userId championId championName now lobbyName lobbyPassword
        = Except.ok (s', r)) :
    (s.status = DraftStatus.banning ∨ s.status = DraftStatus.picking)
    ∧ ∃ a, s.actions[s.currentPhase]? = some a
        ∧ (s', r) = applyDraftAction s a championId championName now lobbyName
            lobbyPassword := by
  unfold makeDraftAction at h
  split at h
  · exact absurd h (by simp)
  split at h
  · exact absurd h (by simp)
  rename_i hstatus
  rw [not_not] at hstatus
  split at h
  · exact absurd h (by simp)
  rename_i currentAction hget
  split at h
  · exact absurd h (by simp)
  split at h
  next =>
    simp only [] at h
    split at h
    · exact absurd h (by simp)
    split at h
    · exact absurd h (by simp)
    injection h with h2
    exact ⟨hstatus, currentAction, hget, h2.symm⟩
  next =>
    split at h
    next =>
      simp only [] at h
      split at h
      · exact absurd h (by simp)
      split at h
      · exact absurd h (by simp)
      injection h with h2
      exact ⟨hstatus, currentAction, hget, h2.symm⟩
    next =>
      simp only [] at h
      exact absurd h (by simp)

/-- The success path preserves the machine invariant: the acted index goes
inactive, and either the session completes or the next index becomes the
unique active one. -/
lemma applyDraftAction_inv (s : Draft) (a : DraftAction) (championId championName : String)
    (now : Nat) (lobbyName lobbyPassword : String) (hinv : DraftInv s)
    (hstatus : s.status = DraftStatus.banning ∨ s.status = DraftStatus.picking) :
    DraftInv (applyDraftAction s a championId championName now lobbyName lobbyPassword).1 := by
  obtain ⟨hlen, _, hbp⟩ := hinv
  obtain ⟨hcp, hact⟩ := hbp hstatus
  unfold applyDraftAction
  simp only []
  split
  next hge =>
    unfold DraftInv
    refine ⟨by simpa using hlen, ?_, ?_⟩
    · intro hw
      exact absurd hw (by simp)
    · intro hc
      rcases hc with hc | hc <;> exact absurd hc (by simp)
  next hlt =>
    have hlt' : s.currentPhase + 1 < 16 := by
      simp only [List.length_set] at hlt
      omega
    unfold DraftInv
    refine ⟨by simpa using hlen, ?_, ?_⟩
    · intro hw
      simp only [] at hw
      split at hw
      · exact absurd hw (by simp)
      · rcases hstatus with hs | hs <;> rw [hs] at hw <;> exact absurd hw (by simp)
    · intro _
      refine ⟨hlt', ?_⟩
      intro i hi
      simp only [List.length_set] at hi
      rw [hlen] at hi
      by_cases h1 : i = s.currentPhase + 1
      · subst h1
        rw [List.getElem?_set_self (by simp only [List.length_set]; omega)]
        simp
      · rw [List.getElem?_set_ne (fun hh => h1 hh.symm)]
        by_cases h2 : i = s.currentPhase
        · subst h2
          rw [List.getElem?_set_self (by omega)]
          simp only [Option.map_some, Option.some.injEq]
          simp
        · rw [List.getElem?_set_ne (fun hh => h2 hh.symm)]
          have hia := hact i (by omega)
          rw [hia]
          have e1 : decide (i = s.currentPhase) = false := by simp [h2]
          have e2 : decide (i = s.currentPhase + 1) = false := by simp [h1]
          rw [e1, e2]

/-- A freshly created session satisfies the machine invariant. -/
lemma DraftInv_init {s : Draft} (h : DraftInit s) : DraftInv s := by
  obtain ⟨h1, h2, h3⟩ := h
  unfold DraftInv
  refine ⟨by rw [h3]; rfl, ?_, ?_⟩
  · intro _
    refine ⟨h2, ?_⟩
    intro i hi
    rw [h3] at hi ⊢
    rw [show createDraftActions.length = 16 from rfl] at hi
    interval_cases i <;> rfl
  · intro hc
    rcases hc with hc | hc <;> rw [h1] at hc <;> exact absurd hc (by decide)

/-- Every successful transition preserves the machine invariant. -/
lemma DraftInv_step {s s' : Draft} (hinv : DraftInv s) (hstep : DraftStep s s') :
    DraftInv s' := by
  cases hstep with
  | ready userId now allReady h =>
    obtain ⟨hw, hact, hcp, hst⟩ := setDraftReady_ok_inv h
    obtain ⟨hlen, hwait, _⟩ := hinv
    obtain ⟨hcp0, hact0⟩ := hwait hw
    unfold DraftInv
    refine ⟨by rw [hact]; exact hlen, ?_, ?_⟩
    · intro hw'
      refine ⟨by rw [hcp, hcp0], ?_⟩
      intro i hi
      rw [hact] at hi ⊢
      exact hact0 i hi
    · intro hc
      have hs' : s'.status = DraftStatus.banning := by
        rcases hst with h' | h'
        · exact h'
        · rw [hw] at h'
          rcases hc with hc | hc <;> rw [h'] at hc <;> exact absurd hc (by decide)
      refine ⟨by rw [hcp, hcp0]; decide, ?_⟩
      intro i hi
      rw [hact] at hi ⊢
      rw [hcp, hcp0]
      exact hact0 i hi
  | action userId championId championName now lobbyName lobbyPassword r h =>
    obtain ⟨hstatus, a, hget, heq⟩ := makeDraftAction_ok_shape h
    have hs' : s' = (applyDraftAction s a championId championName now lobbyName
        lobbyPassword).1 := congrArg Prod.fst heq
    rw [hs']
    exact applyDraftAction_inv s a championId championName now lobbyName lobbyPassword
      hinv hstatus
  | timeout userId h =>
    obtain ⟨hc, hact, _⟩ := timeoutDraftAction_ok_inv h
    obtain ⟨hlen, _, _⟩ := hinv
    unfold DraftInv
    refine ⟨by rw [hact]; exact hlen, ?_, ?_⟩
    · intro hw
      rw [hc] at hw
      exact absurd hw (by decide)
    · intro hbp
      rcases hbp with hb | hb <;> rw [hc] at hb <;> exact absurd hb (by decide)

/-- No transition ever decreases the phase index. -/
lemma DraftStep_phase_mono {s s' : Draft} (hstep : DraftStep s s') :
    s.currentPhase ≤ s'.currentPhase := by
  cases hstep with
  | ready userId now allReady h =>
    exact le_of_eq (setDraftReady_ok_inv h).2.2.1.symm
  | action userId championId championName now lobbyName lobbyPassword r h =>
    obtain ⟨_, a, hget, heq⟩ := makeDraftAction_ok_shape h
    have hcp : s.currentPhase < s.actions.length := by
      rcases List.getElem?_eq_some.mp hget with ⟨hlt, _⟩
      exact hlt
    have hs' : s' = (applyDraftAction s a championId championName now lobbyName
        lobbyPassword).1 := congrArg Prod.fst heq
    have hpost := (applyDraftAction_post s a championId championName now lobbyName
      lobbyPassword hcp).2
    rw [hs']
    rcases hpost with hp | ⟨hp, _⟩ <;> omega
  | timeout userId h =>
    exact le_of_eq (timeoutDraftAction_ok_inv h).2.2.symm

/-- Sessions created by the matchmaking loop start in the initial shape. -/
lemma tryMatchPlayers_init {queue : List QueueEntry} {now : Nat}
    {sel : List QueueEntry} {d : Draft}
    (h : tryMatchPlayers queue now = some (sel, d)) : DraftInit d := by
  unfold tryMatchPlayers at h
  split at h
  · injection h with h2
    have hd := congrArg Prod.snd h2
    simp only [] at hd
    subst hd
    exact ⟨rfl, rfl, rfl⟩
  · exact absurd h (by simp)

/-- C5: machine invariant and phase monotonicity.  Every session reachable
from a freshly created one (waiting, phase 0, the fixed template) through
successful ready, submit-action and timeout transitions satisfies: while
the status is banning or picking, the 16-entry sequence has exactly one
active action, namely the one at the current phase index, which is in
range; every further transition leaves the phase index unchanged or
increases it; and every session the matchmaking loop creates is in the
initial shape. -/
theorem draft_reachable_invariant (s₀ s : Draft) (hinit : DraftInit s₀)
    (hreach : Relation.ReflTransGen DraftStep s₀ s) :
    ((s.status = DraftStatus.banning ∨ s.status = DraftStatus.picking) →
      s.actions.length = 16 ∧ s.currentPhase < 16
        ∧ activeExactly s.actions s.currentPhase)
    ∧ (∀ s', DraftStep s s' → s.currentPhase ≤ s'.currentPhase)
    ∧ (∀ (queue : List QueueEntry) (now : Nat) (sel : List QueueEntry) (d : Draft),
        tryMatchPlayers queue now = some (sel, d) → DraftInit d) := by
  have hinv : DraftInv s := by
    induction hreach with
    | refl => exact DraftInv_init hinit
    | tail _ hstep ih => exact DraftInv_step ih hstep
  obtain ⟨hlen, _, hbp⟩ := hinv
  refine ⟨?_, ?_, ?_⟩
  · intro h
    obtain ⟨hcp, hact⟩ := hbp h
    exact ⟨hlen, hcp, hact⟩
  · intro s' hs
    exact DraftStep_phase_mono hs
  · intro queue now sel d h
    exact tryMatchPlayers_init h

/-- C5 witness: the invariant theorem applied to the concrete banning
session reached from the fresh session d0 by ten successful ready calls. -/
theorem draft_reachable_invariant_witness :
    dBanning.actions.length = 16 ∧ dBanning.currentPhase < 16
      ∧ activeExactly dBanning.actions dBanning.currentPhase :=
  (draft_reachable_invariant d0 dBanning ⟨rfl, rfl, rfl⟩
    (Relation.ReflTransGen.head (DraftStep.ready "b1" 0 false rfl)
      (Relation.ReflTransGen.head (DraftStep.ready "b2" 0 false rfl)
        (Relation.ReflTransGen.head (DraftStep.ready "b3" 0 false rfl)
          (Relation.ReflTransGen.head (DraftStep.ready "b4" 0 false rfl)
            (Relation.ReflTransGen.head (DraftStep.ready "b5" 0 false rfl)
              (Relation.ReflTransGen.head (DraftStep.ready "r1" 0 false rfl)
                (Relation.ReflTransGen.head (DraftStep.ready "r2" 0 false rfl)
                  (Relation.ReflTransGen.head (DraftStep.ready "r3" 0 false rfl)
                    (Relation.ReflTransGen.head (DraftStep.ready "r4" 0 false rfl)
                      (Relation.ReflTransGen.head (DraftStep.ready "r5" 0 true rfl)
                        Relation.ReflTransGen.refl))))))))))).1 (Or.inl rfl)

/-- C6 counterexample: in the snapshot q0 the three top laners share rating
800; the stable sort keeps snapshot (document-id) order, so the selection
takes tA and tB, skipping tC even though tC joined before tA.  The claimed
deterministic tie-break in favor of the earlier join timestamp therefore
fails: join timestamps are never consulted. -/
theorem tryMatch_tiebreak_counterexample :
    selectedForRole q0 Role.top = [tA, tB]
    ∧ ((tryMatchPlayers q0 0).map fun x => x.1)
        = some ((roles.map fun r => selectedForRole q0 r).flatten)
    ∧ tA.mmr = tC.mmr ∧ tA.role = Role.top ∧ tC.role = Role.top
    ∧ tC.joinedAt < tA.joinedAt
    ∧ tC ∈ playersByRole q0 Role.top
    ∧ tC ∉ selectedForRole q0 Role.top := by
  decide

/-- C6 amended: a match forms exactly when every role has at least two
waiting entries, and each role contributes the first two entries of the
stable ascending rating sort of its group: two entries of minimal rating,
with ties resolved by the position in the queue snapshot (Firestore
document order), not by the join timestamp. -/
theorem tryMatch_selects_lowest (queue : List QueueEntry) (now : Nat) :
    ((tryMatchPlayers queue now).isSome = true
      ↔ ∀ r ∈ roles, 2 ≤ (playersByRole queue r).length)
    ∧ (∀ sel d, tryMatchPlayers queue now = some (sel, d) →
        sel = (roles.map fun r => selectedForRole queue r).flatten
        ∧ ∀ r ∈ roles, ∃ rest,
            (playersByRole queue r).Perm (selectedForRole queue r ++ rest)
            ∧ ∀ e ∈ selectedForRole queue r, ∀ f ∈ rest, e.mmr ≤ f.mmr) := by
  constructor
  · have hiff : (tryMatchPlayers queue now).isSome = true
        ↔ (roles.all fun r => 2 ≤ (playersByRole queue r).length) = true := by
      unfold tryMatchPlayers
      split
      next h => simp [h]
      next h => simp [h]
    rw [hiff, List.all_eq_true]
    constructor <;> intro h r hr <;> have := h r hr <;> simpa using this
  · intro sel d h
    unfold tryMatchPlayers at h
    split at h
    next hall =>
      injection h with h2
      have hsel := congrArg Prod.fst h2
      simp only [] at hsel
      subst hsel
      constructor
      · rfl
      · intro r _
        refine ⟨(sortByMmrAsc (playersByRole queue r)).drop 2, ?_, ?_⟩
        · have hsplit : selectedForRole queue r
              ++ (sortByMmrAsc (playersByRole queue r)).drop 2
              = sortByMmrAsc (playersByRole queue r) := List.take_append_drop 2 _
          rw [hsplit]
          exact (List.perm_insertionSort _ _).symm
        · intro e he f hf
          have hsorted : List.Sorted (fun a b : QueueEntry => a.mmr ≤ b.mmr)
              (sortByMmrAsc (playersByRole queue r)) := List.sorted_insertionSort _ _
          exact hsorted.rel_of_mem_take_of_mem_drop he hf
    next => exact absurd h (by simp)

/-- C6 witness: the amended selection theorem applied to the concrete
snapshot q0, for the top role. -/
theorem tryMatch_selects_lowest_witness :
    2 ≤ (playersByRole q0 Role.top).length
    ∧ ∃ rest, (playersByRole q0 Role.top).Perm (selectedForRole q0 Role.top ++ rest)
        ∧ ∀ e ∈ selectedForRole q0 Role.top, ∀ f ∈ rest, e.mmr ≤ f.mmr :=
  ⟨(tryMatch_selects_lowest q0 0).1.mp (by decide) Role.top (by decide),
   ((tryMatch_selects_lowest q0 0).2 ((Option.map Prod.fst (tryMatchPlayers q0 0)).getD [])
       ((Option.map Prod.snd (tryMatchPlayers q0 0)).getD d0) rfl).2 Role.top (by decide)⟩

/-- The descending sort puts the larger rating first. -/
lemma sortByMmrDesc_head {l : List QueueEntry} {p1 p2 : QueueEntry}
    {rest : List QueueEntry} (h : sortByMmrDesc l = p1 :: p2 :: rest) :
    p2.mmr ≤ p1.mmr := by
  have hs : List.Sorted (fun a b : QueueEntry => b.mmr ≤ a.mmr) (sortByMmrDesc l) :=
    List.sorted_insertionSort _ _
  rw [h] at hs
  exact (List.pairwise_cons.mp hs).1 p2 (by simp)

/-- A role gap is never negative. -/
lemma roleGap_nonneg (l : List QueueEntry) : 0 ≤ roleGap l := by
  unfold roleGap
  split
  next p1 p2 rest h =>
    have := sortByMmrDesc_head h
    linarith
  next => exact le_refl 0

/-- One balancing step moves the absolute team-total difference to at most
the larger of its previous bound and the rating gap of the processed role. -/
lemma balanceStep_bound (acc : List QueueEntry × List QueueEntry)
    (rl : List QueueEntry) (M : ℚ)
    (hM : |((acc.1.map fun p => p.mmr).sum) - ((acc.2.map fun p => p.mmr).sum)| ≤ M) :
    |(((balanceStep acc rl).1.map fun p => p.mmr).sum)
        - (((balanceStep acc rl).2.map fun p => p.mmr).sum)|
      ≤ max M (roleGap rl) := by
  unfold balanceStep
  split
  next p1 p2 rest heq =>
    have hg : p2.mmr ≤ p1.mmr := sortByMmrDesc_head heq
    have hgap : roleGap rl = p1.mmr - p2.mmr := by
      simp only [roleGap, heq]
    rw [hgap]
    simp only []
    split
    next hle =>
      simp only [List.map_append, List.sum_append, List.map_cons, List.map_nil,
        List.sum_cons, List.sum_nil]
      rw [abs_le] at hM ⊢
      have h1 := le_max_left M (p1.mmr - p2.mmr)
      have h2 := le_max_right M (p1.mmr - p2.mmr)
      constructor <;> linarith
    next hgt =>
      rw [not_le] at hgt
      simp only [List.map_append, List.sum_append, List.map_cons, List.map_nil,
        List.sum_cons, List.sum_nil]
      rw [abs_le] at hM ⊢
      have h1 := le_max_left M (p1.mmr - p2.mmr)
      have h2 := le_max_right M (p1.mmr - p2.mmr)
      constructor <;> linarith
  next =>
    exact hM.trans (le_max_left _ _)

/-- Folding the balancing step over a list of role groups keeps the
absolute team-total difference below the largest processed gap (or the
initial difference). -/
lemma balance_foldl_bound (rls : List (List QueueEntry))
    (acc : List QueueEntry × List QueueEntry) :
    |(((rls.foldl balanceStep acc).1.map fun p => p.mmr).sum)
        - (((rls.foldl balanceStep acc).2.map fun p => p.mmr).sum)|
      ≤ max (|((acc.1.map fun p => p.mmr).sum) - ((acc.2.map fun p => p.mmr).sum)|)
          ((rls.map roleGap).foldr max 0) := by
  induction rls generalizing acc with
  | nil =>
    simp only [List.foldl_nil, List.map_nil, List.foldr_nil]
    exact le_max_left _ _
  | cons hd tl ih =>
    simp only [List.foldl_cons, List.map_cons, List.foldr_cons]
    refine (ih (balanceStep acc hd)).trans (max_le ?_ ?_)
    · refine (balanceStep_bound acc hd _ le_rfl).trans (max_le ?_ ?_)
      · exact le_max_left _ _
      · exact le_trans (le_max_left _ _) (le_max_right _ _)
    · exact le_trans (le_max_right _ _) (le_max_right _ _)

/-- The running maximum of nonnegative gaps is nonnegative. -/
lemma foldr_max_nonneg (l : List ℚ) : 0 ≤ l.foldr max 0 := by
  induction l with
  | nil => exact le_refl 0
  | cons hd tl ih => exact ih.trans (le_max_right _ _)

/-- C7: team balancing processes the roles in canonical order with running
team totals, giving the higher-rated entry of each role pair to the team
with the smaller total (ties to blue, as balanceStep encodes); for an input
with exactly one pair per role, the gap between the two team average
ratings is bounded by the single largest per-role rating gap. -/
theorem balanceTeams_gap_bound (players : List QueueEntry)
    (hpairs : ∀ r ∈ roles, (playersByRole players r).length = 2) :
    |teamAvgMmr (balanceTeams players).1 - teamAvgMmr (balanceTeams players).2|
      ≤ maxRoleGap players := by
  have hmax0 : 0 ≤ maxRoleGap players := by
    unfold maxRoleGap
    exact foldr_max_nonneg _
  have hrw : balanceTeams players
      = (roles.map (playersByRole players)).foldl balanceStep ([], []) := by
    unfold balanceTeams
    rw [List.foldl_map]
  have hgaps : ((roles.map (playersByRole players)).map roleGap).foldr max 0
      = maxRoleGap players := by
    unfold maxRoleGap
    rw [List.map_map]
    rfl
  have hsum : |((((balanceTeams players).1.map fun p => p.mmr).sum))
      - ((((balanceTeams players).2).map fun p => p.mmr).sum)| ≤ maxRoleGap players := by
    rw [hrw]
    refine (balance_foldl_bound _ _).trans ?_
    rw [hgaps]
    simp only [List.map_nil, List.sum_nil, sub_zero, abs_zero]
    rw [max_eq_right hmax0]
  unfold teamAvgMmr
  rw [div_sub_div_same, abs_div]
  rw [show |(5 : ℚ)| = 5 from by norm_num]
  exact le_trans (div_le_self (abs_nonneg _) (by norm_num)) hsum

/-- C7 witness: the balancing bound applied to a concrete queue of exactly
two entries per role. -/
theorem balanceTeams_gap_bound_witness :
    (∀ r ∈ roles, (playersByRole p10 r).length = 2)
    ∧ |teamAvgMmr (balanceTeams p10).1 - teamAvgMmr (balanceTeams p10).2|
        ≤ maxRoleGap p10 :=
  ⟨by decide, balanceTeams_gap_bound p10 (by decide)⟩
